import Mathlib

/-!
Verification of the LiftTok pose-capture / playback-synchronization subsystem.

The definitions below are a shallow embedding of the JavaScript in `src/App.js`
(current variant and the legacy variant), and of the Android native module
`PoseDetectionModule` (Kotlin).  JavaScript numbers are modelled exactly:
finite values as rationals, plus the three non-finite values `Infinity`,
`-Infinity` and `NaN` produced by division by zero (float rounding and signed
zero are abstracted away; no claim depends on either).
-/

/-- Model of a JavaScript number: a finite value (as an exact rational) or one
of the non-finite values `Infinity`, `-Infinity`, `NaN`. -/
inductive JSNum where
  | num : ℚ → JSNum
  | inf : JSNum
  | negInf : JSNum
  | nan : JSNum
deriving DecidableEq, Repr

namespace JSNum

/-- JavaScript multiplication (`*`) on numbers. -/
def mul : JSNum → JSNum → JSNum
  | .num a, .num b => .num (a * b)
  | .num a, .inf => if a = 0 then .nan else if 0 < a then .inf else .negInf
  | .num a, .negInf => if a = 0 then .nan else if 0 < a then .negInf else .inf
  | .inf, .num b => if b = 0 then .nan else if 0 < b then .inf else .negInf
  | .negInf, .num b => if b = 0 then .nan else if 0 < b then .negInf else .inf
  | .inf, .inf => .inf
  | .inf, .negInf => .negInf
  | .negInf, .inf => .negInf
  | .negInf, .negInf => .inf
  | _, _ => .nan

/-- JavaScript division (`/`) on numbers; a finite value divided by zero gives
`Infinity` / `-Infinity` / `NaN` according to the sign of the dividend. -/
def div : JSNum → JSNum → JSNum
  | .num a, .num b =>
      if b = 0 then (if a = 0 then .nan else if 0 < a then .inf else .negInf)
      else .num (a / b)
  | .num _, .inf => .num 0
  | .num _, .negInf => .num 0
  | .inf, .num b => if 0 ≤ b then .inf else .negInf
  | .negInf, .num b => if 0 ≤ b then .negInf else .inf
  | _, _ => .nan

/-- JavaScript addition (`+`) on numbers. -/
def add : JSNum → JSNum → JSNum
  | .num a, .num b => .num (a + b)
  | .num _, .inf => .inf
  | .inf, .num _ => .inf
  | .inf, .inf => .inf
  | .num _, .negInf => .negInf
  | .negInf, .num _ => .negInf
  | .negInf, .negInf => .negInf
  | _, _ => .nan

/-- JavaScript subtraction (`-`) on numbers. -/
def sub : JSNum → JSNum → JSNum
  | .num a, .num b => .num (a - b)
  | .num _, .inf => .negInf
  | .inf, .num _ => .inf
  | .num _, .negInf => .inf
  | .negInf, .num _ => .negInf
  | .inf, .negInf => .inf
  | .negInf, .inf => .negInf
  | _, _ => .nan

/-- Returns `true` exactly on finite JavaScript numbers. -/
def isFinite : JSNum → Bool
  | .num _ => true
  | _ => false

/-- The rational carried by a finite JavaScript number (0 otherwise). -/
def ratOf : JSNum → ℚ
  | .num q => q
  | _ => 0

end JSNum

instance : Mul JSNum := ⟨JSNum.mul⟩
instance : Div JSNum := ⟨JSNum.div⟩
instance : Add JSNum := ⟨JSNum.add⟩
instance : Sub JSNum := ⟨JSNum.sub⟩

/-- A width/height pair (screen dimensions, frame dimensions, persisted
`dimensions` of a pose sample). -/
structure Dims where
  width : JSNum
  height : JSNum
deriving DecidableEq, Repr

/-- One landmark point `{x, y, visibility}` as it appears throughout the app
(raw detector output, transformed overlay point, persisted point). -/
structure Pt where
  x : JSNum
  y : JSNum
  visibility : ℚ
deriving DecidableEq, Repr

/-- A `LandmarkSet`: a JavaScript object mapping landmark names to points,
modelled as an association list in insertion order. -/
def LandmarkSet := List (String × Pt)

/-- One element of the persisted `poseData` array:
`{timestamp, landmarks, dimensions}` (App.js lines 578-585). -/
structure Sample where
  timestamp : ℤ
  landmarks : List (String × Pt)
  dims : Dims
deriving DecidableEq, Repr

/-- Function `transformPoseData` (App.js lines 137-153, the playback-side transform of
`VideoItem`).  The `videoDims` parameter exists in the source but is unused
there; the factors are computed from the sample's own recorded dimensions.
`poseData = none` models a `null` argument (the function returns `null`). -/
def transformPoseData (screenDims : Dims) (poseData : Option Sample)
    (_videoDims : Option Dims := none) : Option (List (String × Pt)) :=
  match poseData with
  | none => none
  | some pd =>
    let xFactor := screenDims.width / pd.dims.width
    let yFactor := screenDims.height / pd.dims.height
    some (pd.landmarks.map fun kp =>
      (kp.1, { x := kp.2.x * xFactor, y := kp.2.y * yFactor,
               visibility := kp.2.visibility }))

/-- The live capture-loop transform (App.js lines 560-573): scales raw
detector landmarks by screen/image factors and then shifts every point by
`+50` in x and `-100` in y. -/
def captureTransform (screenDims imageDims : Dims)
    (landmarks : List (String × Pt)) : List (String × Pt) :=
  let xFactor := screenDims.width / imageDims.width
  let yFactor := screenDims.height / imageDims.height
  landmarks.map fun kp =>
    (kp.1, { x := kp.2.x * xFactor + .num 50, y := kp.2.y * yFactor - .num 100,
             visibility := kp.2.visibility })

/-- The spec's error type for the landmark transform. -/
inductive TransformError where
  | InvalidDimension
deriving DecidableEq, Repr

/-- The landmark transform as the SPEC words it (section 4.1), for comparison
with the code: each point is scaled by `dst/src`, visibility passed through,
and a non-positive (or non-finite) source dimension is an `InvalidDimension`
error rather than a silent coercion. -/
def transformPoseDataSpec (screenDims : Dims) (pd : Sample) :
    Except TransformError (List (String × Pt)) :=
  match pd.dims.width, pd.dims.height with
  | .num sw, .num sh =>
    if sw ≤ 0 ∨ sh ≤ 0 then .error .InvalidDimension
    else
      .ok (pd.landmarks.map fun kp =>
        (kp.1, { x := .num (kp.2.x.ratOf * (screenDims.width.ratOf / sw)),
                 y := .num (kp.2.y.ratOf * (screenDims.height.ratOf / sh)),
                 visibility := kp.2.visibility }))
  | _, _ => .error .InvalidDimension

/-- Constant `VISIBILITY_THRESHOLD` (App.js line 33). -/
def VISIBILITY_THRESHOLD : ℚ := 1/2

/-- Constant `HIGH_CONFIDENCE_THRESHOLD` (App.js line 34). -/
def HIGH_CONFIDENCE_THRESHOLD : ℚ := 4/5

/-- An SVG `Line` as produced by the overlay components. -/
structure RenderedLine where
  x1 : JSNum
  y1 : JSNum
  x2 : JSNum
  y2 : JSNum
  stroke : String
  strokeOpacity : ℚ
deriving DecidableEq, Repr

/-- An SVG `Circle` as produced by `PosePoint`. -/
structure RenderedPoint where
  cx : JSNum
  cy : JSNum
  r : ℚ
  fill : String
  fillOpacity : ℚ
deriving DecidableEq, Repr

/-- Component `PoseLine` (App.js lines 37-62): renders nothing when either endpoint is
missing or has `visibility < VISIBILITY_THRESHOLD`. -/
def poseLine (startPoint endPoint : Option Pt) : Option RenderedLine :=
  match startPoint, endPoint with
  | some s, some e =>
    if s.visibility < VISIBILITY_THRESHOLD ∨ e.visibility < VISIBILITY_THRESHOLD then
      none
    else
      let avgVisibility := (s.visibility + e.visibility) / 2
      let opacity := max (3/10) avgVisibility
      let strokeColor :=
        if HIGH_CONFIDENCE_THRESHOLD < avgVisibility then "#4CAF50" else "#FFA726"
      some { x1 := s.x, y1 := s.y, x2 := e.x, y2 := e.y,
             stroke := strokeColor, strokeOpacity := opacity }
  | _, _ => none

/-- Component `PosePoint` (App.js lines 65-86): renders nothing when the point is
missing or has `visibility < VISIBILITY_THRESHOLD`. -/
def posePoint (point : Option Pt) : Option RenderedPoint :=
  match point with
  | some p =>
    if p.visibility < VISIBILITY_THRESHOLD then none
    else
      let radius : ℚ := if HIGH_CONFIDENCE_THRESHOLD < p.visibility then 4 else 3
      let opacity := max (3/10) p.visibility
      let fillColor :=
        if HIGH_CONFIDENCE_THRESHOLD < p.visibility then "#4CAF50" else "#FFA726"
      some { cx := p.x, cy := p.y, r := radius, fill := fillColor,
             fillOpacity := opacity }
  | none => none

/-- The legacy `WireframeOverlay` (src/unnamed/part_000 lines 17-37): takes an
ARRAY of points and draws a degenerate lime line for each point with
`visibility > 0.5` (strict); `none` models a `null` prop. -/
def wireframeOverlayLegacy (poseData : Option (List Pt)) :
    Option (List RenderedLine) :=
  match poseData with
  | none => none
  | some ps =>
    if ps.length = 0 then none
    else
      some (ps.filterMap fun p =>
        if (1/2 : ℚ) < p.visibility then
          some { x1 := p.x, y1 := p.y, x2 := p.x, y2 := p.y,
                 stroke := "lime", strokeOpacity := 1 }
        else none)

/-- The `Array.prototype.find` call of `updatePoseData` (App.js lines
159-162): the first sample whose `timestamp` is `≤ t` and whose successor (if
any) has `timestamp > t`. -/
def findFrame : List Sample → ℤ → Option Sample
  | [], _ => none
  | f :: rest, t =>
    match rest with
    | [] => if f.timestamp ≤ t then some f else none
    | g :: _ =>
      if f.timestamp ≤ t ∧ ¬ g.timestamp ≤ t then some f else findFrame rest t

/-- Playback resolution as the SPEC words it (section 4.4): the sample whose
`timestampMs` is the greatest value `≤ t` (most-recent-not-future). -/
def mostRecentNotFuture (tl : List Sample) (t : ℤ) : Option Sample :=
  (tl.filter fun s => s.timestamp ≤ t).getLast?

/-- Function `updatePoseData` (App.js lines 156-167): when the item is active and has
pose data, looks up the current frame and republishes its transform; when no
frame matches, the previously published overlay `cur` is left unchanged.
`poseData = none` models a `null`/absent `item.poseData`. -/
def updatePoseData (screenDims : Dims) (isActive : Bool)
    (poseData : Option (List Sample)) (cur : Option (List (String × Pt)))
    (t : ℤ) : Option (List (String × Pt)) :=
  if isActive = false then cur
  else
    match poseData with
    | none => cur
    | some tl =>
      match findFrame tl t with
      | some f => transformPoseData screenDims (some f)
      | none => cur

/-- The `onProgress` handler (App.js lines 204-209): the playback cursor (in
ms) is reduced MODULO the last sample's timestamp (`|| 0`) before resolution;
a zero modulus gives `NaN` in JavaScript, for which the `find` matches no
frame, leaving the overlay unchanged. -/
def onProgressUpdate (screenDims : Dims) (isActive : Bool)
    (poseData : Option (List Sample)) (cur : Option (List (String × Pt)))
    (currentTimeMillis : ℤ) : Option (List (String × Pt)) :=
  let lastTs := (((poseData.getD []).getLast?).map Sample.timestamp).getD 0
  if lastTs = 0 then cur
  else updatePoseData screenDims isActive poseData cur
    (currentTimeMillis.tmod lastTs)

/-- The persisted `poseData` field of a video document: JavaScript/Firestore
distinguishes an absent field, an explicit `null`, and an attached array. -/
inductive PoseDataField where
  | absent
  | null
  | timeline (samples : List Sample)
deriving DecidableEq, Repr

/-- The video document written by `addDoc` (App.js lines 662-667). -/
structure VideoDoc where
  videoUrl : String
  thumbnailUrl : String
  createdAt : ℤ
  poseData : PoseDataField
deriving DecidableEq, Repr

/-- Construction of the persisted video record in `onRecordingFinished`
(App.js lines 662-667): `poseData` is the recorded array when non-empty and
the explicit value `null` otherwise. -/
def makeVideoDoc (videoUrl thumbnailUrl : String) (createdAt : ℤ)
    (recorded : List Sample) : VideoDoc :=
  { videoUrl := videoUrl, thumbnailUrl := thumbnailUrl, createdAt := createdAt,
    poseData :=
      if recorded.length > 0 then .timeline recorded else .null }

/-- The object resolved by the native `cleanupCache` (PoseDetectionModule.kt):
it carries exactly the keys `deletedFiles` and `skipped`.  The JavaScript side
reads `response.success`, so that possible key is modelled too; the native
module never writes it, hence it is `none` (JavaScript `undefined`) in every
response the module produces. -/
structure CleanupResponse where
  deletedFiles : ℤ
  skipped : Bool
  success : Option Bool
deriving DecidableEq, Repr

/-- The map resolved by the native `cleanupCache` promise
(PoseDetectionModule.kt lines 69-107): only `deletedFiles` and `skipped`. -/
def nativeCleanupResolve (deletedFiles : ℤ) (skipped : Bool) : CleanupResponse :=
  { deletedFiles := deletedFiles, skipped := skipped, success := none }

/-- The object resolved by the native `detectPose` success listener.
`landmarks` is `some` when the key is present (a JavaScript object, truthy
even when the map is empty); `memoryWarning` is the possibly-absent key the
JavaScript side reads, `none` meaning `undefined`. -/
structure DetectResult where
  imageWidth : JSNum
  imageHeight : JSNum
  landmarks : Option (List (String × Pt))
  poseDetected : Bool
  memoryWarning : Option Bool
deriving DecidableEq, Repr

/-- One MLKit pose landmark as the native module receives it. -/
structure RawLandmark where
  landmarkType : ℕ
  x : JSNum
  y : JSNum
  inFrameLikelihood : ℚ
deriving DecidableEq, Repr

/-- Map `landmarkMapping` (PoseDetectionModule.kt lines 45-58): MLKit landmark
type constants to the app's landmark names. -/
def landmarkMapping : List (ℕ × String) :=
  [(11, "leftShoulder"), (12, "rightShoulder"),
   (13, "leftElbow"), (14, "rightElbow"),
   (15, "leftWrist"), (16, "rightWrist"),
   (23, "leftHip"), (24, "rightHip"),
   (25, "leftKnee"), (26, "rightKnee"),
   (27, "leftAnkle"), (28, "rightAnkle")]

/-- The success path of the native `detectPose` (PoseDetectionModule.kt lines
132-155): the result ALWAYS carries a `landmarks` map (possibly empty),
`poseDetected` is whether MLKit returned any landmark at all, and no
`memoryWarning` key is ever written. -/
def nativeDetectResult (width height : ℤ) (pose : List RawLandmark) :
    DetectResult :=
  { imageWidth := .num width,
    imageHeight := .num height,
    landmarks := some (pose.filterMap fun l =>
      ((landmarkMapping.lookup l.landmarkType).map fun nm =>
        (nm, ({ x := l.x, y := l.y, visibility := l.inFrameLikelihood } : Pt)))),
    poseDetected := !pose.isEmpty,
    memoryWarning := none }

/-- Constant `maxSkippedFrames` (App.js line 453). -/
def maxSkippedFrames : ℕ := 3

/-- Phase of one execution of the frame-interval callback: between its start
and the resolution of `takePhoto`, or between the issuing of `detectPose` and
its completion. -/
inductive JobPhase where
  | takingPhoto
  | detecting
deriving DecidableEq, Repr

/-- One in-progress execution of the frame-interval callback, with the values
its closure captured: `now` (`Date.now()` at tick entry) and `rec` (the
`recording` state captured by the effect closure that created the tick). -/
structure Job where
  phase : JobPhase
  now : ℤ
  recFlag : Bool
deriving DecidableEq, Repr

/-- The mutable state touched by `RecordScreen`'s frame-sampling effect
(App.js lines 509-609) and by `toggleRecording` (lines 629-708):
refs (`processingFrame`, `lastProcessedTime`, `memoryPressureRef`,
`skippedFramesRef`, `recordedPoseData`, `recordingStartTime`), the React
`recording` state, whether the current effect instance's `frameInterval` is
still installed, the live overlay, and the set of in-progress callback
executions. -/
structure LoopState where
  processing : Bool
  lastProcessed : ℤ
  memoryPressure : Bool
  skippedFrames : ℕ
  recording : Bool
  intervalActive : Bool
  jobs : List Job
  recorded : List Sample
  startTime : Option ℤ
  poseOverlay : Option (List (String × Pt))
deriving DecidableEq, Repr

/-- The initial state of a freshly mounted `RecordScreen` (ref initial
values, App.js lines 437-455). -/
def initLoopState : LoopState :=
  { processing := false, lastProcessed := 0, memoryPressure := false,
    skippedFrames := 0, recording := false, intervalActive := true,
    jobs := [], recorded := [], startTime := none, poseOverlay := none }

/-- Function `cleanupCache` (App.js lines 458-469) applied to the state: on a resolved
response it clears the flag and counter only when the flag is set AND
`response.success` is truthy; on a rejected promise (`resp = none`, the catch
path) it sets the memory-pressure flag. -/
def applyCleanup (s : LoopState) (resp : Option CleanupResponse) : LoopState :=
  match resp with
  | some r =>
    if s.memoryPressure && r.success.getD false then
      { s with memoryPressure := false, skippedFrames := 0 }
    else s
  | none => { s with memoryPressure := true }

/-- Observable actions of one step of the loop. -/
inductive Act where
  | cleanupIssued
  | detectIssued
  | appended (smp : Sample)
deriving DecidableEq, Repr

/-- Events driving the loop: timer ticks (with the `Date.now()` value and the
response the awaited `cleanupCache` would get, where reached), completions of
the `takePhoto` and `detectPose` promises of in-progress execution `i`,
`toggleRecording` start/stop, and the effect cleanup on unmount.  Each event
is one synchronously executed segment of JavaScript. -/
inductive Event where
  | tick (t : ℤ) (cresp : Option CleanupResponse)
  | photoOk (i : ℕ)
  | photoNoPath (i : ℕ)
  | photoErr (i : ℕ)
  | detectOk (i : ℕ) (r : DetectResult) (cresp : Option CleanupResponse)
  | detectErr (i : ℕ)
  | startRec (t : ℤ) (cresp : Option CleanupResponse)
  | stopRec (cresp : Option CleanupResponse)
  | unmount (cresp : Option CleanupResponse)
deriving DecidableEq, Repr

/-- One step of the machine; returns the new state and the observable
actions.  Transcribed from App.js lines 509-609 (the frame interval), 458-469
(`cleanupCache`) and 629-708 (`toggleRecording`). -/
def step (screenDims : Dims) (s : LoopState) : Event → LoopState × List Act
  | .tick t cresp =>
    if s.intervalActive = false then (s, [])
    else if s.processing || decide (t - s.lastProcessed < 200) then (s, [])
    else if s.memoryPressure then
      let s1 := { s with skippedFrames := s.skippedFrames + 1 }
      if maxSkippedFrames ≤ s1.skippedFrames then
        (applyCleanup s1 cresp, [.cleanupIssued])
      else (s1, [])
    else
      ({ s with processing := true,
                jobs := s.jobs ++ [{ phase := .takingPhoto, now := t,
                                     recFlag := s.recording }] }, [])
  | .photoOk i =>
    match s.jobs[i]? with
    | some j =>
      if j.phase = .takingPhoto then
        ({ s with jobs := s.jobs.set i { j with phase := .detecting } },
         [.detectIssued])
      else (s, [])
    | none => (s, [])
  | .photoNoPath i =>
    match s.jobs[i]? with
    | some j =>
      if j.phase = .takingPhoto then
        ({ s with jobs := s.jobs.eraseIdx i, processing := false }, [])
      else (s, [])
    | none => (s, [])
  | .photoErr i =>
    match s.jobs[i]? with
    | some j =>
      if j.phase = .takingPhoto then
        ({ s with jobs := s.jobs.eraseIdx i, processing := false,
                  memoryPressure := true, poseOverlay := none }, [])
      else (s, [])
    | none => (s, [])
  | .detectOk i r cresp =>
    match s.jobs[i]? with
    | some j =>
      if j.phase = .detecting then
        let s1 := { s with lastProcessed := j.now }
        let (s3, acts) :=
          match r.landmarks with
          | some lms =>
            let transformed :=
              captureTransform screenDims ⟨r.imageWidth, r.imageHeight⟩ lms
            let s2 := { s1 with poseOverlay := some transformed }
            if j.recFlag then
              let ts := j.now - (s.startTime.getD j.now)
              let smp : Sample :=
                { timestamp := ts, landmarks := transformed,
                  dims := screenDims }
              ({ s2 with recorded := s2.recorded ++ [smp] },
               [Act.appended smp])
            else (s2, [])
          | none => ({ s1 with poseOverlay := none }, [])
        let (s4, acts4) :=
          if r.memoryWarning.getD false then
            (applyCleanup { s3 with memoryPressure := true } cresp,
             acts ++ [Act.cleanupIssued])
          else (s3, acts)
        ({ s4 with jobs := s4.jobs.eraseIdx i, processing := false }, acts4)
      else (s, [])
    | none => (s, [])
  | .detectErr i =>
    match s.jobs[i]? with
    | some j =>
      if j.phase = .detecting then
        ({ s with jobs := s.jobs.eraseIdx i, processing := false,
                  memoryPressure := true, poseOverlay := none }, [])
      else (s, [])
    | none => (s, [])
  | .startRec t cresp =>
    (applyCleanup
      { s with recorded := [], startTime := some t, recording := true }
      cresp, [.cleanupIssued])
  | .stopRec cresp =>
    (applyCleanup { s with recording := false } cresp, [.cleanupIssued])
  | .unmount cresp =>
    (applyCleanup { s with intervalActive := false } cresp, [.cleanupIssued])

/-- Run the machine over a list of events. -/
def run (screenDims : Dims) (s : LoopState) : List Event → LoopState
  | [] => s
  | e :: es => run screenDims (step screenDims s e).1 es

/-- Number of `detectPose` calls currently in flight. -/
def inflight (s : LoopState) : ℕ :=
  s.jobs.countP fun j => j.phase = .detecting

/-- A 1x1 screen, convenient for concrete evaluations. -/
def screenOne : Dims := ⟨.num 1, .num 1⟩

/-- A concrete persisted sample at a given timestamp, with one named landmark
and 1x1 source dimensions. -/
def sampleAt (ts : ℤ) (nm : String) : Sample :=
  ⟨ts, [(nm, ⟨.num 1, .num 2, 1⟩)], ⟨.num 1, .num 1⟩⟩

/-- The spec's example timeline with timestamps `[0, 500, 1200]`. -/
def timelineExample : List Sample :=
  [sampleAt 0 "a", sampleAt 500 "b", sampleAt 1200 "c"]

/-- A response of a successfully resolved native cleanup call (it deleted one
file and was not rate-limit skipped). -/
def cleanupOk : CleanupResponse := nativeCleanupResolve 1 false

/-- A reachable trace putting the loop under memory pressure (a failed
`takePhoto` sets the flag) followed by two skipped ticks. -/
def pressureTrace : List Event :=
  [.tick 200 none, .photoErr 0, .tick 400 (some cleanupOk),
   .tick 600 (some cleanupOk)]

/-- A reachable trace: recording starts, a tick fires and its `detectPose`
call goes in flight, then the recording is stopped while the detection is
still pending. -/
def stopTrace : List Event :=
  [.startRec 300 (some cleanupOk), .tick 500 (some cleanupOk), .photoOk 0,
   .stopRec (some cleanupOk)]

/-- Inductive invariant of the frame-sampling loop: the busy flag is exact
(no pending execution when clear, never more than one), every pending
execution started a full sampling period after the last processed frame, the
recorded timeline is non-decreasing and its last timestamp is accounted for
by `lastProcessed`, and a set `recording` flag (or a pending execution that
captured it set) implies a recorded start instant. -/
def MInv (s : LoopState) : Prop :=
  (s.processing = false → s.jobs = []) ∧
  s.jobs.length ≤ 1 ∧
  (∀ j ∈ s.jobs, s.lastProcessed + 200 ≤ j.now) ∧
  List.Chain' (· ≤ ·) (s.recorded.map Sample.timestamp) ∧
  (∀ ts ∈ (s.recorded.map Sample.timestamp).getLast?, ∀ st ∈ s.startTime,
    ts + st ≤ s.lastProcessed) ∧
  (s.recording = true → s.startTime.isSome) ∧
  (∀ j ∈ s.jobs, j.recFlag = true → s.startTime.isSome)

theorem applyCleanup_recorded (s : LoopState) (resp : Option CleanupResponse) :
    (applyCleanup s resp).recorded = s.recorded := by
  unfold applyCleanup; cases resp <;> simp only [] <;> split <;> rfl

theorem applyCleanup_jobs (s : LoopState) (resp : Option CleanupResponse) :
    (applyCleanup s resp).jobs = s.jobs := by
  unfold applyCleanup; cases resp <;> simp only [] <;> split <;> rfl

theorem applyCleanup_processing (s : LoopState) (resp : Option CleanupResponse) :
    (applyCleanup s resp).processing = s.processing := by
  unfold applyCleanup; cases resp <;> simp only [] <;> split <;> rfl

theorem applyCleanup_lastProcessed (s : LoopState)
    (resp : Option CleanupResponse) :
    (applyCleanup s resp).lastProcessed = s.lastProcessed := by
  unfold applyCleanup; cases resp <;> simp only [] <;> split <;> rfl

theorem applyCleanup_startTime (s : LoopState) (resp : Option CleanupResponse) :
    (applyCleanup s resp).startTime = s.startTime := by
  unfold applyCleanup; cases resp <;> simp only [] <;> split <;> rfl

theorem applyCleanup_recording (s : LoopState) (resp : Option CleanupResponse) :
    (applyCleanup s resp).recording = s.recording := by
  unfold applyCleanup; cases resp <;> simp only [] <;> split <;> rfl

theorem applyCleanup_intervalActive (s : LoopState)
    (resp : Option CleanupResponse) :
    (applyCleanup s resp).intervalActive = s.intervalActive := by
  unfold applyCleanup; cases resp <;> simp only [] <;> split <;> rfl

theorem list_singleton_of_mem_of_length_le_one {α : Type _} {l : List α}
    {a : α} (h : a ∈ l) (hl : l.length ≤ 1) : l = [a] := by
  match l with
  | [] => cases h
  | [b] => simp only [List.mem_singleton] at h; rw [h]
  | b :: c :: rest => simp at hl

theorem minv_flags (s : LoopState) (h : MInv s) (b : Bool) (n : ℕ) :
    MInv { s with memoryPressure := b, skippedFrames := n } := h

theorem minv_applyCleanup (s : LoopState) (resp : Option CleanupResponse)
    (h : MInv s) : MInv (applyCleanup s resp) := by
  unfold applyCleanup
  cases resp with
  | none => exact minv_flags s h true s.skippedFrames
  | some r =>
    by_cases hc : (s.memoryPressure && r.success.getD false) = true
    · simp only [hc, if_true]
      exact minv_flags s h false 0
    · simp only [if_neg hc]
      exact h

theorem getElem?_singleton {α : Type _} {a b : α} {i : ℕ}
    (h : ([a] : List α)[i]? = some b) : i = 0 ∧ b = a := by
  cases i with
  | zero =>
    refine ⟨rfl, ?_⟩
    have hab : a = b := by simpa using h
    exact hab.symm
  | succ n => simp at h

theorem applyCleanup_eq (s : LoopState) (resp : Option CleanupResponse) :
    ∃ b n, applyCleanup s resp =
      { s with memoryPressure := b, skippedFrames := n } := by
  unfold applyCleanup
  cases resp with
  | none => exact ⟨true, s.skippedFrames, rfl⟩
  | some r =>
    by_cases hc : (s.memoryPressure && r.success.getD false) = true
    · exact ⟨false, 0, by simp only [hc, if_true]⟩
    · exact ⟨s.memoryPressure, s.skippedFrames, by simp only [if_neg hc]⟩

theorem minv_finish (s4 : LoopState) (i : ℕ)
    (hjobs : s4.jobs.eraseIdx i = [])
    (hc4 : List.Chain' (· ≤ ·) (s4.recorded.map Sample.timestamp))
    (hc5 : ∀ ts ∈ (s4.recorded.map Sample.timestamp).getLast?,
      ∀ st ∈ s4.startTime, ts + st ≤ s4.lastProcessed)
    (hc6 : s4.recording = true → s4.startTime.isSome) :
    MInv { s4 with jobs := s4.jobs.eraseIdx i, processing := false } := by
  refine ⟨fun _ => hjobs, ?_, ?_, hc4, hc5, hc6, ?_⟩
  · simp [hjobs]
  · intro j hj
    rw [hjobs] at hj
    cases hj
  · intro j hj
    rw [hjobs] at hj
    cases hj

theorem minv_finish_cleanup (X : LoopState) (cresp : Option CleanupResponse)
    (i : ℕ) (hjobs : X.jobs.eraseIdx i = [])
    (hc4 : List.Chain' (· ≤ ·) (X.recorded.map Sample.timestamp))
    (hc5 : ∀ ts ∈ (X.recorded.map Sample.timestamp).getLast?,
      ∀ st ∈ X.startTime, ts + st ≤ X.lastProcessed)
    (hc6 : X.recording = true → X.startTime.isSome) :
    MInv { applyCleanup X cresp with
           jobs := (applyCleanup X cresp).jobs.eraseIdx i,
           processing := false } := by
  refine minv_finish (applyCleanup X cresp) i ?_ ?_ ?_ ?_
  · rw [applyCleanup_jobs]
    exact hjobs
  · rw [applyCleanup_recorded]
    exact hc4
  · intro ts hts st hst
    rw [applyCleanup_recorded] at hts
    rw [applyCleanup_startTime] at hst
    rw [applyCleanup_lastProcessed]
    exact hc5 ts hts st hst
  · intro hc
    rw [applyCleanup_recording] at hc
    rw [applyCleanup_startTime]
    exact hc6 hc

theorem minv_step (scr : Dims) (s : LoopState) (e : Event) (h : MInv s) :
    MInv (step scr s e).1 := by
  cases e with
  | tick t cresp =>
    simp only [step]
    by_cases hA : s.intervalActive = false
    · simp only [if_pos hA]
      exact h
    · simp only [if_neg hA]
      by_cases hB : (s.processing || decide (t - s.lastProcessed < 200)) = true
      · simp only [hB, if_true]
        exact h
      · simp only [if_neg hB]
        by_cases hC : s.memoryPressure = true
        · simp only [hC, if_true]
          by_cases hD : maxSkippedFrames ≤ s.skippedFrames + 1
          · simp only [if_pos hD]
            exact minv_applyCleanup _ cresp
              (minv_flags s h s.memoryPressure (s.skippedFrames + 1))
          · simp only [if_neg hD]
            exact minv_flags s h s.memoryPressure (s.skippedFrames + 1)
        · simp only [if_neg hC]
          obtain ⟨h1, h2, h3, h4, h5, h6, h7⟩ := h
          have hBf : s.processing = false ∧ ¬ t - s.lastProcessed < 200 := by
            simpa using hB
          have hempty : s.jobs = [] := h1 hBf.1
          refine ⟨?_, ?_, ?_, h4, h5, h6, ?_⟩
          · intro hp
            simp at hp
          · simp [hempty]
          · intro j hj
            rw [hempty] at hj
            simp only [List.nil_append, List.mem_singleton] at hj
            rw [hj]
            show s.lastProcessed + 200 ≤ t
            have := hBf.2
            omega
          · intro j hj hr
            rw [hempty] at hj
            simp only [List.nil_append, List.mem_singleton] at hj
            rw [hj] at hr
            exact h6 hr
  | photoOk i =>
    cases hj : s.jobs[i]? with
    | none =>
      simp only [step, hj]
      exact h
    | some j =>
      by_cases hph : j.phase = JobPhase.takingPhoto
      · obtain ⟨h1, h2, h3, h4, h5, h6, h7⟩ := h
        have hmem : j ∈ s.jobs := List.getElem?_mem hj
        have hsingle : s.jobs = [j] :=
          list_singleton_of_mem_of_length_le_one hmem h2
        have hi : i = 0 := by
          rw [hsingle] at hj
          exact (getElem?_singleton hj).1
        have hset : s.jobs.set i { j with phase := JobPhase.detecting }
            = [{ j with phase := JobPhase.detecting }] := by
          rw [hsingle, hi]
          rfl
        simp only [step, hj, if_pos hph, hset]
        refine ⟨?_, by simp, ?_, h4, h5, h6, ?_⟩
        · intro hp
          rw [h1 hp] at hsingle
          cases hsingle
        · intro jj hjj
          simp only [List.mem_singleton] at hjj
          rw [hjj]
          show s.lastProcessed + 200 ≤ j.now
          exact h3 j hmem
        · intro jj hjj hr
          simp only [List.mem_singleton] at hjj
          rw [hjj] at hr
          exact h7 j hmem hr
      · simp only [step, hj, if_neg hph]
        exact h
  | photoNoPath i =>
    cases hj : s.jobs[i]? with
    | none =>
      simp only [step, hj]
      exact h
    | some j =>
      by_cases hph : j.phase = JobPhase.takingPhoto
      · obtain ⟨h1, h2, h3, h4, h5, h6, h7⟩ := h
        have hmem : j ∈ s.jobs := List.getElem?_mem hj
        have hsingle : s.jobs = [j] :=
          list_singleton_of_mem_of_length_le_one hmem h2
        have hi : i = 0 := by
          rw [hsingle] at hj
          exact (getElem?_singleton hj).1
        have herase : s.jobs.eraseIdx i = [] := by
          rw [hsingle, hi]
          rfl
        simp only [step, hj, if_pos hph]
        exact minv_finish s i herase h4 h5 h6
      · simp only [step, hj, if_neg hph]
        exact h
  | photoErr i =>
    cases hj : s.jobs[i]? with
    | none =>
      simp only [step, hj]
      exact h
    | some j =>
      by_cases hph : j.phase = JobPhase.takingPhoto
      · obtain ⟨h1, h2, h3, h4, h5, h6, h7⟩ := h
        have hmem : j ∈ s.jobs := List.getElem?_mem hj
        have hsingle : s.jobs = [j] :=
          list_singleton_of_mem_of_length_le_one hmem h2
        have hi : i = 0 := by
          rw [hsingle] at hj
          exact (getElem?_singleton hj).1
        have herase : s.jobs.eraseIdx i = [] := by
          rw [hsingle, hi]
          rfl
        simp only [step, hj, if_pos hph]
        exact minv_finish
          ({ s with memoryPressure := true, poseOverlay := none } : LoopState)
          i herase h4 h5 h6
      · simp only [step, hj, if_neg hph]
        exact h
  | detectErr i =>
    cases hj : s.jobs[i]? with
    | none =>
      simp only [step, hj]
      exact h
    | some j =>
      by_cases hph : j.phase = JobPhase.detecting
      · obtain ⟨h1, h2, h3, h4, h5, h6, h7⟩ := h
        have hmem : j ∈ s.jobs := List.getElem?_mem hj
        have hsingle : s.jobs = [j] :=
          list_singleton_of_mem_of_length_le_one hmem h2
        have hi : i = 0 := by
          rw [hsingle] at hj
          exact (getElem?_singleton hj).1
        have herase : s.jobs.eraseIdx i = [] := by
          rw [hsingle, hi]
          rfl
        simp only [step, hj, if_pos hph]
        exact minv_finish
          ({ s with memoryPressure := true, poseOverlay := none } : LoopState)
          i herase h4 h5 h6
      · simp only [step, hj, if_neg hph]
        exact h
  | startRec t cresp =>
    simp only [step]
    refine minv_applyCleanup _ cresp ?_
    obtain ⟨h1, h2, h3, h4, h5, h6, h7⟩ := h
    refine ⟨h1, h2, h3, by simp, ?_, fun _ => rfl, fun _ _ _ => rfl⟩
    intro ts hts
    simp at hts
  | stopRec cresp =>
    simp only [step]
    refine minv_applyCleanup _ cresp ?_
    obtain ⟨h1, h2, h3, h4, h5, h6, h7⟩ := h
    refine ⟨h1, h2, h3, h4, h5, ?_, h7⟩
    intro hc
    simp at hc
  | unmount cresp =>
    simp only [step]
    exact minv_applyCleanup _ cresp h
  | detectOk i r cresp =>
    cases hj : s.jobs[i]? with
    | none =>
      simp only [step, hj]
      exact h
    | some j =>
      by_cases hph : j.phase = JobPhase.detecting
      · obtain ⟨h1, h2, h3, h4, h5, h6, h7⟩ := h
        have hmem : j ∈ s.jobs := List.getElem?_mem hj
        have hsingle : s.jobs = [j] :=
          list_singleton_of_mem_of_length_le_one hmem h2
        have hi : i = 0 := by
          rw [hsingle] at hj
          exact (getElem?_singleton hj).1
        have herase : s.jobs.eraseIdx i = [] := by
          rw [hsingle, hi]
          rfl
        have hnow : s.lastProcessed + 200 ≤ j.now := h3 j hmem
        have h5' : ∀ ts ∈ (s.recorded.map Sample.timestamp).getLast?,
            ∀ st ∈ s.startTime, ts + st ≤ j.now := by
          intro ts hts st hst
          have := h5 ts hts st hst
          omega
        simp only [step, hj, if_pos hph]
        cases hl : r.landmarks with
        | none =>
          by_cases hw : r.memoryWarning.getD false = true
          · simp only [hw, if_true]
            exact minv_finish_cleanup
              ({ s with lastProcessed := j.now, poseOverlay := none,
                        memoryPressure := true } : LoopState)
              cresp i herase h4 h5' h6
          · simp only [if_neg hw]
            exact minv_finish
              ({ s with lastProcessed := j.now, poseOverlay := none } :
                LoopState)
              i herase h4 h5' h6
        | some lms =>
          by_cases hr : j.recFlag = true
          · have hsome : s.startTime.isSome := h7 j hmem hr
            obtain ⟨st0, hst0⟩ := Option.isSome_iff_exists.mp hsome
            have hgetD : s.startTime.getD j.now = st0 := by
              rw [hst0]
              rfl
            simp only [hr, if_true, hgetD]
            have hst0mem : st0 ∈ s.startTime := by
              rw [hst0]
              rfl
            have hchain : List.Chain' (· ≤ ·)
                ((s.recorded ++
                  [({ timestamp := j.now - st0,
                      landmarks := captureTransform scr
                        ⟨r.imageWidth, r.imageHeight⟩ lms,
                      dims := scr } : Sample)]).map Sample.timestamp) := by
              rw [List.map_append, List.chain'_append]
              refine ⟨h4, by simp, ?_⟩
              intro x hx y hy
              simp only [List.map_cons, List.map_nil, List.head?_cons,
                Option.mem_def, Option.some.injEq] at hy
              have hx5 := h5 x hx st0 hst0mem
              have hy' : y = j.now - st0 := hy.symm
              rw [hy']
              omega
            have hlast : ∀ ts ∈ ((s.recorded ++
                  [({ timestamp := j.now - st0,
                      landmarks := captureTransform scr
                        ⟨r.imageWidth, r.imageHeight⟩ lms,
                      dims := scr } : Sample)]).map Sample.timestamp).getLast?,
                ∀ st ∈ s.startTime, ts + st ≤ j.now := by
              intro ts hts st hst
              rw [hst0] at hst
              simp only [Option.mem_def, Option.some.injEq] at hst
              simp only [List.map_append, List.map_cons, List.map_nil,
                List.getLast?_concat, Option.mem_def, Option.some.injEq] at hts
              have hts' : ts = j.now - st0 := hts.symm
              have hst' : st = st0 := hst.symm
              rw [hts', hst']
              omega
            by_cases hw : r.memoryWarning.getD false = true
            · simp only [hw, if_true]
              exact minv_finish_cleanup
                ({ s with lastProcessed := j.now,
                          poseOverlay := some (captureTransform scr
                            ⟨r.imageWidth, r.imageHeight⟩ lms),
                          recorded := s.recorded ++
                            [({ timestamp := j.now - st0,
                                landmarks := captureTransform scr
                                  ⟨r.imageWidth, r.imageHeight⟩ lms,
                                dims := scr } : Sample)],
                          memoryPressure := true } : LoopState)
                cresp i herase hchain hlast h6
            · simp only [if_neg hw]
              exact minv_finish
                ({ s with lastProcessed := j.now,
                          poseOverlay := some (captureTransform scr
                            ⟨r.imageWidth, r.imageHeight⟩ lms),
                          recorded := s.recorded ++
                            [({ timestamp := j.now - st0,
                                landmarks := captureTransform scr
                                  ⟨r.imageWidth, r.imageHeight⟩ lms,
                                dims := scr } : Sample)] } : LoopState)
                i herase hchain hlast h6
          · simp only [if_neg hr]
            by_cases hw : r.memoryWarning.getD false = true
            · simp only [hw, if_true]
              exact minv_finish_cleanup
                ({ s with lastProcessed := j.now,
                          poseOverlay := some (captureTransform scr
                            ⟨r.imageWidth, r.imageHeight⟩ lms),
                          memoryPressure := true } : LoopState)
                cresp i herase h4 h5' h6
            · simp only [if_neg hw]
              exact minv_finish
                ({ s with lastProcessed := j.now,
                          poseOverlay := some (captureTransform scr
                            ⟨r.imageWidth, r.imageHeight⟩ lms) } : LoopState)
                i herase h4 h5' h6
      · simp only [step, hj, if_neg hph]
        exact h

theorem minv_init : MInv initLoopState := by
  unfold MInv initLoopState
  refine ⟨fun _ => rfl, by simp, by simp, by simp, by simp, by simp, by simp⟩

theorem minv_run (scr : Dims) (s : LoopState) (h : MInv s) :
    ∀ evs : List Event, MInv (run scr s evs)
  | [] => h
  | e :: es => minv_run scr _ (minv_step scr s e h) es

theorem detect_issue_shape (scr : Dims) (s : LoopState) (e : Event)
    (hmem : Act.detectIssued ∈ (step scr s e).2) :
    ∃ i j, e = Event.photoOk i ∧ s.jobs[i]? = some j ∧
      j.phase = JobPhase.takingPhoto := by
  cases e with
  | photoOk i =>
    cases hj : s.jobs[i]? with
    | none =>
      simp only [step, hj] at hmem
      simp at hmem
    | some j =>
      by_cases hph : j.phase = JobPhase.takingPhoto
      · exact ⟨i, j, rfl, hj, hph⟩
      · simp only [step, hj, if_neg hph] at hmem
        simp at hmem
  | tick t cresp =>
    simp only [step] at hmem
    repeat' split at hmem
    all_goals simp at hmem
  | photoNoPath i =>
    simp only [step] at hmem
    repeat' split at hmem
    all_goals simp at hmem
  | photoErr i =>
    simp only [step] at hmem
    repeat' split at hmem
    all_goals simp at hmem
  | detectOk i r cresp =>
    simp only [step] at hmem
    repeat' split at hmem
    all_goals simp at hmem
  | detectErr i =>
    simp only [step] at hmem
    repeat' split at hmem
    all_goals simp at hmem
  | startRec t cresp =>
    simp only [step] at hmem
    simp at hmem
  | stopRec cresp =>
    simp only [step] at hmem
    simp at hmem
  | unmount cresp =>
    simp only [step] at hmem
    simp at hmem

theorem append_act_shape (scr : Dims) (s : LoopState) (e : Event)
    (smp : Sample) (hmem : Act.appended smp ∈ (step scr s e).2) :
    ∃ i r cresp j, e = Event.detectOk i r cresp ∧ s.jobs[i]? = some j ∧
      j.phase = JobPhase.detecting ∧ j.recFlag = true := by
  cases e with
  | detectOk i r cresp =>
    cases hj : s.jobs[i]? with
    | none =>
      simp only [step, hj] at hmem
      simp at hmem
    | some j =>
      by_cases hph : j.phase = JobPhase.detecting
      · by_cases hrec : j.recFlag = true
        · exact ⟨i, r, cresp, j, rfl, hj, hph, hrec⟩
        · simp only [step, hj, if_pos hph, if_neg hrec] at hmem
          repeat' split at hmem
          all_goals simp at hmem
      · simp only [step, hj, if_neg hph] at hmem
        simp at hmem
  | tick t cresp =>
    simp only [step] at hmem
    repeat' split at hmem
    all_goals simp at hmem
  | photoOk i =>
    simp only [step] at hmem
    repeat' split at hmem
    all_goals simp at hmem
  | photoNoPath i =>
    simp only [step] at hmem
    repeat' split at hmem
    all_goals simp at hmem
  | photoErr i =>
    simp only [step] at hmem
    repeat' split at hmem
    all_goals simp at hmem
  | detectErr i =>
    simp only [step] at hmem
    repeat' split at hmem
    all_goals simp at hmem
  | startRec t cresp =>
    simp only [step] at hmem
    simp at hmem
  | stopRec cresp =>
    simp only [step] at hmem
    simp at hmem
  | unmount cresp =>
    simp only [step] at hmem
    simp at hmem

theorem JSNum.num_mul_num (a b : ℚ) :
    JSNum.num a * JSNum.num b = JSNum.num (a * b) := rfl

theorem JSNum.num_add_num (a b : ℚ) :
    JSNum.num a + JSNum.num b = JSNum.num (a + b) := rfl

theorem JSNum.num_sub_num (a b : ℚ) :
    JSNum.num a - JSNum.num b = JSNum.num (a - b) := rfl

theorem JSNum.num_div_num (a b : ℚ) (hb : b ≠ 0) :
    JSNum.num a / JSNum.num b = JSNum.num (a / b) := by
  show JSNum.div _ _ = _
  simp [JSNum.div, hb]

theorem JSNum.isFinite_exists (n : JSNum) (h : n.isFinite = true) :
    ∃ q, n = JSNum.num q := by
  cases n with
  | num q => exact ⟨q, rfl⟩
  | inf => simp [JSNum.isFinite] at h
  | negInf => simp [JSNum.isFinite] at h
  | nan => simp [JSNum.isFinite] at h

theorem findFrame_eq_mostRecentNotFuture (tl : List Sample) (t : ℤ)
    (h : tl.Pairwise fun a b => a.timestamp ≤ b.timestamp) :
    findFrame tl t = mostRecentNotFuture tl t := by
  induction tl with
  | nil => rfl
  | cons f rest ih =>
    cases rest with
    | nil =>
      by_cases hf : f.timestamp ≤ t
      · simp [findFrame, mostRecentNotFuture, List.filter_cons, hf]
      · simp [findFrame, mostRecentNotFuture, List.filter_cons, hf]
    | cons g rest2 =>
      have hparts := List.pairwise_cons.mp h
      have htail : (g :: rest2).Pairwise
          (fun a b => a.timestamp ≤ b.timestamp) := hparts.2
      have hrest : ∀ x ∈ rest2, g.timestamp ≤ x.timestamp :=
        fun x hx => (List.pairwise_cons.mp htail).1 x hx
      by_cases hf : f.timestamp ≤ t
      · by_cases hg : g.timestamp ≤ t
        · have hcond : ¬ (f.timestamp ≤ t ∧ ¬ g.timestamp ≤ t) := by
            intro hc
            exact hc.2 hg
          simp only [findFrame]
          rw [if_neg hcond]
          show findFrame (g :: rest2) t = mostRecentNotFuture (f :: g :: rest2) t
          rw [ih htail]
          show (List.filter (fun s => decide (s.timestamp ≤ t)) (g :: rest2)).getLast?
            = (List.filter (fun s => decide (s.timestamp ≤ t)) (f :: g :: rest2)).getLast?
          have hdec : (decide (f.timestamp ≤ t)) = true := by simp [hf]
          conv_rhs => rw [List.filter_cons]
          rw [if_pos hdec]
          cases hcf : List.filter (fun s => decide (s.timestamp ≤ t)) (g :: rest2) with
          | nil =>
            exfalso
            have hgmem : g ∈ List.filter
                (fun s => decide (s.timestamp ≤ t)) (g :: rest2) := by
              simp [List.mem_filter, hg]
            rw [hcf] at hgmem
            cases hgmem
          | cons a as =>
            exact (List.getLast?_cons_cons).symm
        · have hcond : f.timestamp ≤ t ∧ ¬ g.timestamp ≤ t := ⟨hf, hg⟩
          simp only [findFrame]
          rw [if_pos hcond]
          show some f
            = (List.filter (fun s => decide (s.timestamp ≤ t)) (f :: g :: rest2)).getLast?
          have hfilter : List.filter
              (fun s => decide (s.timestamp ≤ t)) (g :: rest2) = [] := by
            rw [List.filter_eq_nil_iff]
            intro a ha
            simp only [decide_eq_true_eq]
            rcases List.mem_cons.mp ha with h1 | h1
            · rw [h1]
              exact hg
            · intro hle
              exact hg (le_trans (hrest a h1) hle)
          have hdec : (decide (f.timestamp ≤ t)) = true := by simp [hf]
          conv_rhs => rw [List.filter_cons]
          rw [if_pos hdec, hfilter]
          rfl
      · have hcond : ¬ (f.timestamp ≤ t ∧ ¬ g.timestamp ≤ t) :=
          fun hc => hf hc.1
        simp only [findFrame]
        rw [if_neg hcond]
        show findFrame (g :: rest2) t = mostRecentNotFuture (f :: g :: rest2) t
        rw [ih htail]
        show (List.filter (fun s => decide (s.timestamp ≤ t)) (g :: rest2)).getLast?
          = (List.filter (fun s => decide (s.timestamp ≤ t)) (f :: g :: rest2)).getLast?
        have hdec : ¬ (decide (f.timestamp ≤ t)) = true := by simp [hf]
        conv_rhs => rw [List.filter_cons]
        rw [if_neg hdec]

/-- C1 counterexample: the live capture-loop transform does not satisfy
`x' = x * (dstW/srcW)`, `y' = y * (dstH/srcH)`.  With source and destination
both 100x200 the point `(0, 0)` should map to `(0, 0)`, but the capture-loop
transform maps it to `(50, -100)` because of its fixed `+50`/`-100` offsets. -/
theorem c1_capture_offset_counterexample :
    captureTransform ⟨.num 100, .num 200⟩ ⟨.num 100, .num 200⟩
        [("leftShoulder", ⟨.num 0, .num 0, 1⟩)]
      = [("leftShoulder", ⟨.num 50, .num (-100), 1⟩)] ∧
    JSNum.num 50 ≠ JSNum.num (0 * ((100 : ℚ) / 100)) ∧
    JSNum.num (-100) ≠ JSNum.num (0 * ((200 : ℚ) / 200)) := by
  refine ⟨?_, ?_, ?_⟩
  · norm_num [captureTransform, JSNum.num_div_num, JSNum.num_mul_num,
      JSNum.num_add_num, JSNum.num_sub_num]
  · simp only [ne_eq, JSNum.num.injEq]
    norm_num
  · simp only [ne_eq, JSNum.num.injEq]
    norm_num

/-- C1 (amended): for positive finite source dimensions and finite points,
the playback transform `transformPoseData` maps each point exactly to
`(x * (dstW/srcW), y * (dstH/srcH))` with `visibility` unchanged, while the
live capture-loop transform produces that same scaling SHIFTED by `+50` in x
and `-100` in y (visibility still unchanged). -/
theorem c1_transform_sites_amended (dw dh sw sh : ℚ) (ts : ℤ)
    (lms : List (String × Pt)) (hsw : 0 < sw) (hsh : 0 < sh)
    (hfin : ∀ kp ∈ lms, kp.2.x.isFinite = true ∧ kp.2.y.isFinite = true) :
    transformPoseData ⟨.num dw, .num dh⟩ (some ⟨ts, lms, ⟨.num sw, .num sh⟩⟩)
      = some (lms.map fun kp =>
          (kp.1, { x := .num (kp.2.x.ratOf * (dw / sw)),
                   y := .num (kp.2.y.ratOf * (dh / sh)),
                   visibility := kp.2.visibility })) ∧
    captureTransform ⟨.num dw, .num dh⟩ ⟨.num sw, .num sh⟩ lms
      = lms.map fun kp =>
          (kp.1, { x := .num (kp.2.x.ratOf * (dw / sw) + 50),
                   y := .num (kp.2.y.ratOf * (dh / sh) - 100),
                   visibility := kp.2.visibility }) := by
  have hsw' : sw ≠ 0 := ne_of_gt hsw
  have hsh' : sh ≠ 0 := ne_of_gt hsh
  constructor
  · simp only [transformPoseData]
    congr 1
    apply List.map_congr_left
    intro kp hkp
    obtain ⟨qx, hqx⟩ := JSNum.isFinite_exists _ (hfin kp hkp).1
    obtain ⟨qy, hqy⟩ := JSNum.isFinite_exists _ (hfin kp hkp).2
    rw [hqx, hqy]
    rw [JSNum.num_div_num _ _ hsw', JSNum.num_div_num _ _ hsh']
    rw [JSNum.num_mul_num, JSNum.num_mul_num]
    rfl
  · simp only [captureTransform]
    apply List.map_congr_left
    intro kp hkp
    obtain ⟨qx, hqx⟩ := JSNum.isFinite_exists _ (hfin kp hkp).1
    obtain ⟨qy, hqy⟩ := JSNum.isFinite_exists _ (hfin kp hkp).2
    rw [hqx, hqy]
    rw [JSNum.num_div_num _ _ hsw', JSNum.num_div_num _ _ hsh']
    rw [JSNum.num_mul_num, JSNum.num_mul_num]
    rw [JSNum.num_add_num, JSNum.num_sub_num]
    rfl

/-- C1 witness: the amended transform theorem at concrete input: source 1x2,
destination 2x4, one landmark at `(3, 5)` with visibility 0.9. -/
theorem c1_transform_sites_amended_witness :
    transformPoseData ⟨.num 2, .num 4⟩
        (some ⟨0, [("leftShoulder", ⟨.num 3, .num 5, 9/10⟩)], ⟨.num 1, .num 2⟩⟩)
      = some ([("leftShoulder", (⟨.num 3, .num 5, 9/10⟩ : Pt))].map fun kp =>
          (kp.1, { x := .num (kp.2.x.ratOf * ((2 : ℚ) / 1)),
                   y := .num (kp.2.y.ratOf * ((4 : ℚ) / 2)),
                   visibility := kp.2.visibility })) ∧
    captureTransform ⟨.num 2, .num 4⟩ ⟨.num 1, .num 2⟩
        [("leftShoulder", ⟨.num 3, .num 5, 9/10⟩)]
      = [("leftShoulder", (⟨.num 3, .num 5, 9/10⟩ : Pt))].map fun kp =>
          (kp.1, { x := .num (kp.2.x.ratOf * ((2 : ℚ) / 1) + 50),
                   y := .num (kp.2.y.ratOf * ((4 : ℚ) / 2) - 100),
                   visibility := kp.2.visibility }) :=
  c1_transform_sites_amended 2 4 1 2 0
    [("leftShoulder", ⟨.num 3, .num 5, 9/10⟩)]
    (by norm_num) (by norm_num) (by decide)

/-- C9 counterexample: with zero source dimensions, the spec-side transform
demands an `InvalidDimension` error, but `transformPoseData` as implemented
returns a normal landmark set whose coordinates are JavaScript `Infinity` —
silent coercion, no error is raised anywhere. -/
theorem c9_zero_dimension_counterexample :
    transformPoseDataSpec ⟨.num 2, .num 2⟩
        ⟨0, [("p", ⟨.num 1, .num 1, 1⟩)], ⟨.num 0, .num 0⟩⟩
      = .error .InvalidDimension ∧
    transformPoseData ⟨.num 2, .num 2⟩
        (some ⟨0, [("p", ⟨.num 1, .num 1, 1⟩)], ⟨.num 0, .num 0⟩⟩)
      = some [("p", ⟨.inf, .inf, 1⟩)] := by
  constructor
  · rfl
  · rfl

/-- C9 (amended): `transformPoseData` performs no dimension validation and
never raises: it always returns a landmark set.  With a zero source width and
a positive destination width the scale factor is JavaScript `Infinity`, which
is silently multiplied into every positive finite coordinate. -/
theorem c9_no_invalid_dimension_amended (screenDims : Dims) (pd : Sample)
    (dw : ℚ) (hw : screenDims.width = .num dw) (hdw : 0 < dw)
    (h0 : pd.dims.width = .num 0) :
    (transformPoseData screenDims (some pd)).isSome = true ∧
    screenDims.width / pd.dims.width = JSNum.inf ∧
    ∀ qx : ℚ, 0 < qx →
      JSNum.num qx * (screenDims.width / pd.dims.width) = JSNum.inf := by
  have hdiv : screenDims.width / pd.dims.width = JSNum.inf := by
    rw [hw, h0]
    show JSNum.div _ _ = _
    simp [JSNum.div, ne_of_gt hdw, hdw]
  refine ⟨rfl, hdiv, ?_⟩
  intro qx hqx
  rw [hdiv]
  show JSNum.mul _ _ = _
  simp [JSNum.mul, ne_of_gt hqx, hqx]

/-- C9 witness: the amended theorem at a concrete 2x2 screen and a sample
with 0x0 source dimensions. -/
theorem c9_no_invalid_dimension_amended_witness :
    (transformPoseData ⟨.num 2, .num 2⟩
        (some ⟨0, [("p", ⟨.num 1, .num 1, 1⟩)], ⟨.num 0, .num 0⟩⟩)).isSome
      = true ∧
    (⟨.num 2, .num 2⟩ : Dims).width /
        (⟨0, [("p", ⟨.num 1, .num 1, 1⟩)], ⟨.num 0, .num 0⟩⟩ : Sample).dims.width
      = JSNum.inf ∧
    ∀ qx : ℚ, 0 < qx →
      JSNum.num qx * ((⟨.num 2, .num 2⟩ : Dims).width /
        (⟨0, [("p", ⟨.num 1, .num 1, 1⟩)], ⟨.num 0, .num 0⟩⟩ : Sample).dims.width)
      = JSNum.inf :=
  c9_no_invalid_dimension_amended ⟨.num 2, .num 2⟩
    ⟨0, [("p", ⟨.num 1, .num 1, 1⟩)], ⟨.num 0, .num 0⟩⟩ 2
    rfl (by norm_num) rfl

/-- C4 counterexample: a recording that ends with an empty timeline persists
`poseData: null` — the field is present with an explicit `null` sentinel, not
absent as the claim requires. -/
theorem c4_null_sentinel_counterexample :
    (makeVideoDoc "u" "t" 5 []).poseData = PoseDataField.null ∧
    (makeVideoDoc "u" "t" 5 []).poseData ≠ PoseDataField.absent := by
  constructor
  · rfl
  · intro hcontra
    simp [makeVideoDoc] at hcontra

/-- C4 (amended): an empty timeline is persisted as the explicit sentinel
`null` (not as an absent field), and a non-empty timeline is attached
verbatim; the `poseData` field is never absent. -/
theorem c4_persistence_amended (videoUrl thumbnailUrl : String)
    (createdAt : ℤ) (recorded : List Sample) :
    (recorded = [] →
      (makeVideoDoc videoUrl thumbnailUrl createdAt recorded).poseData
        = PoseDataField.null) ∧
    (recorded ≠ [] →
      (makeVideoDoc videoUrl thumbnailUrl createdAt recorded).poseData
        = PoseDataField.timeline recorded) ∧
    (makeVideoDoc videoUrl thumbnailUrl createdAt recorded).poseData
      ≠ PoseDataField.absent := by
  refine ⟨?_, ?_, ?_⟩
  · intro he
    subst he
    rfl
  · intro hne
    cases recorded with
    | nil => exact absurd rfl hne
    | cons a as => simp [makeVideoDoc]
  · cases recorded with
    | nil =>
      intro hc
      simp [makeVideoDoc] at hc
    | cons a as =>
      intro hc
      simp [makeVideoDoc] at hc

/-- C4 witness: the amended persistence theorem at an empty and at a
one-sample timeline. -/
theorem c4_persistence_amended_witness :
    (makeVideoDoc "u" "t" 5 ([] : List Sample)).poseData
      = PoseDataField.null ∧
    (makeVideoDoc "u" "t" 5 [sampleAt 0 "a"]).poseData
      = PoseDataField.timeline [sampleAt 0 "a"] :=
  ⟨(c4_persistence_amended "u" "t" 5 []).1 rfl,
   (c4_persistence_amended "u" "t" 5 [sampleAt 0 "a"]).2.1 (by simp)⟩

/-- C6 counterexample: at the legacy `WireframeOverlay` rendering site
(src/unnamed/part_000), a landmark with `visibility = 0.5` does NOT appear:
that variant's gate is the strict `> 0.5`, so the rendered output for a
single such point is the empty list. -/
theorem c6_legacy_strict_counterexample :
    wireframeOverlayLegacy (some [⟨.num 1, .num 1, 1/2⟩]) = some [] := by
  simp [wireframeOverlayLegacy]

/-- C6 (amended): in the current components the 0.5 threshold is
boundary-inclusive — `PosePoint` renders exactly when
`visibility ≥ VISIBILITY_THRESHOLD`, and `PoseLine` exactly when both
endpoints do (so 0.49 is hidden and 0.5 shown there) — but the legacy
`WireframeOverlay` variant uses the strict test `visibility > 0.5`, so a 0.5
point does not appear at that site. -/
theorem c6_threshold_amended (p q : Pt) :
    ((posePoint (some p)).isSome = true ↔
      VISIBILITY_THRESHOLD ≤ p.visibility) ∧
    ((poseLine (some p) (some q)).isSome = true ↔
      (VISIBILITY_THRESHOLD ≤ p.visibility ∧
        VISIBILITY_THRESHOLD ≤ q.visibility)) ∧
    ((wireframeOverlayLegacy (some [p])).getD []).length
      = (if (1/2 : ℚ) < p.visibility then 1 else 0) := by
  refine ⟨?_, ?_, ?_⟩
  · simp only [posePoint]
    by_cases hv : p.visibility < VISIBILITY_THRESHOLD
    · simp [hv, not_le]
    · simp [hv, not_lt.mp hv]
  · simp only [poseLine]
    by_cases hor : p.visibility < VISIBILITY_THRESHOLD ∨
        q.visibility < VISIBILITY_THRESHOLD
    · simp only [if_pos hor, Option.isSome_none, Bool.false_eq_true,
        false_iff]
      intro hand
      rcases hor with h | h
      · exact absurd hand.1 (not_le.mpr h)
      · exact absurd hand.2 (not_le.mpr h)
    · simp only [if_neg hor, Option.isSome_some, true_iff]
      push_neg at hor
      exact hor
  · have hlen : ¬ ([p] : List Pt).length = 0 := by simp
    simp only [wireframeOverlayLegacy, if_neg hlen, Option.getD_some,
      List.filterMap_cons, List.filterMap_nil]
    by_cases hv : (1/2 : ℚ) < p.visibility
    · rw [if_pos hv, if_pos hv]
      rfl
    · rw [if_neg hv, if_neg hv]
      rfl

/-- C2 counterexample: with the timeline `[0, 500, 1200]` attached, resolving
the playback cursor `t = 5000` does NOT hold the last (`t=1200`) sample: the
`onProgress` site first reduces the cursor modulo the last timestamp
(5000 mod 1200 = 200), so the `t=0` sample is republished instead. -/
theorem c2_hold_last_counterexample :
    onProgressUpdate screenOne true (some timelineExample) none 5000
      = transformPoseData screenOne (some (sampleAt 0 "a")) ∧
    onProgressUpdate screenOne true (some timelineExample) none 5000
      ≠ transformPoseData screenOne (some (sampleAt 1200 "c")) := by
  constructor
  · rfl
  · intro hcontra
    have h0 : transformPoseData screenOne (some (sampleAt 0 "a"))
        = transformPoseData screenOne (some (sampleAt 1200 "c")) :=
      (show onProgressUpdate screenOne true (some timelineExample) none 5000
          = transformPoseData screenOne (some (sampleAt 0 "a")) from rfl).symm.trans
        hcontra
    simp [transformPoseData, sampleAt, screenOne] at h0

/-- C2 (amended): the `find` of `updatePoseData` resolves the sample whose
`timestampMs` is the greatest value `≤` its argument (holding the last sample
when the argument exceeds it), but the `onProgress` call site first reduces
the playback cursor modulo the last sample's `timestampMs`; hence on
`[0, 500, 1200]`: `t=700` resolves the 500 sample, `t=50` the 0 sample,
`t=5000` wraps to the 0 sample (no hold-last), and `t=0` after a video wrap
resolves the 0 sample. -/
theorem c2_resolution_amended :
    (∀ (tl : List Sample) (t : ℤ),
      tl.Pairwise (fun a b => a.timestamp ≤ b.timestamp) →
      findFrame tl t = mostRecentNotFuture tl t) ∧
    onProgressUpdate screenOne true (some timelineExample) none 700
      = transformPoseData screenOne (some (sampleAt 500 "b")) ∧
    onProgressUpdate screenOne true (some timelineExample) none 50
      = transformPoseData screenOne (some (sampleAt 0 "a")) ∧
    onProgressUpdate screenOne true (some timelineExample) none 5000
      = transformPoseData screenOne (some (sampleAt 0 "a")) ∧
    onProgressUpdate screenOne true (some timelineExample) none 0
      = transformPoseData screenOne (some (sampleAt 0 "a")) :=
  ⟨fun tl t h => findFrame_eq_mostRecentNotFuture tl t h, rfl, rfl, rfl, rfl⟩

/-- C2 witness: the most-recent-not-future characterization applied to the
concrete example timeline at `t = 700`. -/
theorem c2_resolution_amended_witness :
    findFrame timelineExample 700 = mostRecentNotFuture timelineExample 700 :=
  c2_resolution_amended.1 timelineExample 700 (by decide)

/-- C3: from a reachable memory-pressure state with two skipped frames, the
tick that raises the counter to the threshold 3 issues a cleanup request, but
even though the native module resolves the cleanup successfully (it only ever
resolves `{deletedFiles, skipped}` and never a `success` key, which the
JavaScript side reads), the memory-pressure flag is NOT cleared, the counter
is NOT reset, and the next tick issues a cleanup request AGAIN — the cleanup
is not issued exactly once and normal sampling does not resume. -/
theorem c3_flag_never_cleared :
    (run screenOne initLoopState pressureTrace).memoryPressure = true ∧
    (run screenOne initLoopState pressureTrace).skippedFrames = 2 ∧
    (step screenOne (run screenOne initLoopState pressureTrace)
        (.tick 800 (some cleanupOk))).2 = [Act.cleanupIssued] ∧
    (step screenOne (run screenOne initLoopState pressureTrace)
        (.tick 800 (some cleanupOk))).1.memoryPressure = true ∧
    (step screenOne (run screenOne initLoopState pressureTrace)
        (.tick 800 (some cleanupOk))).1.skippedFrames = 3 ∧
    (step screenOne
        (step screenOne (run screenOne initLoopState pressureTrace)
          (.tick 800 (some cleanupOk))).1
        (.tick 1000 (some cleanupOk))).2 = [Act.cleanupIssued] := by
  refine ⟨rfl, rfl, rfl, rfl, rfl, rfl⟩

/-- C5: single-flight — in every reachable state of the frame-sampling loop
at most one detection is in flight, and while one is in flight no step of any
kind issues another `detectPose` call, no matter how many timer ticks occur. -/
theorem c5_single_flight (scr : Dims) (evs : List Event) (e : Event) :
    inflight (run scr initLoopState evs) ≤ 1 ∧
    (1 ≤ inflight (run scr initLoopState evs) →
      Act.detectIssued ∉ (step scr (run scr initLoopState evs) e).2) := by
  have hm := minv_run scr initLoopState minv_init evs
  obtain ⟨h1, h2, h3, h4, h5, h6, h7⟩ := hm
  constructor
  · exact le_trans (List.countP_le_length _) h2
  · intro hin hmem
    obtain ⟨i, j, _, hj, hph⟩ :=
      detect_issue_shape scr (run scr initLoopState evs) e hmem
    have hpos : 0 < (run scr initLoopState evs).jobs.countP
        (fun jj => jj.phase = JobPhase.detecting) := hin
    obtain ⟨jd, hjdmem, hjd⟩ := List.countP_pos_iff.mp hpos
    have hsd : (run scr initLoopState evs).jobs = [jd] :=
      list_singleton_of_mem_of_length_le_one hjdmem h2
    rw [hsd] at hj
    obtain ⟨_, hjeq⟩ := getElem?_singleton hj
    rw [hjeq] at hph
    simp only [decide_eq_true_eq] at hjd
    rw [hjd] at hph
    cases hph

/-- C5 witness: the reachable state after one tick whose photo resolved has
one detection in flight, and in that state a further photo-completion step
issues no detection. -/
theorem c5_single_flight_witness :
    1 ≤ inflight (run screenOne initLoopState
      [.tick 200 none, .photoOk 0]) ∧
    Act.detectIssued ∉ (step screenOne
      (run screenOne initLoopState [.tick 200 none, .photoOk 0])
      (.photoOk 0)).2 :=
  ⟨by decide,
   (c5_single_flight screenOne [.tick 200 none, .photoOk 0]
     (.photoOk 0)).2 (by decide)⟩

/-- C7: in every reachable state of the loop — for any sequence of ticks,
completions, recording starts/stops — the recorded timeline's `timestampMs`
values are monotonically non-decreasing in append order. -/
theorem c7_monotone_timeline (scr : Dims) (evs : List Event) :
    List.Chain' (· ≤ ·)
      ((run scr initLoopState evs).recorded.map Sample.timestamp) :=
  (minv_run scr initLoopState minv_init evs).2.2.2.1

/-- C8 counterexample: a detection in flight when the recording stops is
still appended afterwards.  In the trace start-recording, tick at 500 (photo
resolved, detection issued), stop-recording, the state after the stop has
`recording = false` and an empty timeline, yet when the pending detection
then resolves, its sample IS appended (the sampling closure captured
`recording = true` when its tick began). -/
theorem c8_append_after_stop_counterexample :
    (run screenOne initLoopState stopTrace).recording = false ∧
    (run screenOne initLoopState stopTrace).recorded = [] ∧
    ((step screenOne (run screenOne initLoopState stopTrace)
        (.detectOk 0 (nativeDetectResult 1 1 []) none)).1.recorded).map
      Sample.timestamp = [200] := by
  refine ⟨rfl, rfl, rfl⟩

/-- C8 (amended): once `recording` is false AND no in-flight execution
captured `recording = true`, no step appends to the timeline; and a tick of a
cleared interval (after the effect cleanup ran on unmount) is a no-op.  An
in-flight detection whose tick began before the stop is the one exception
that can still append after stop. -/
theorem c8_no_append_after_stop_amended (scr : Dims) (evs : List Event)
    (e : Event) :
    ((run scr initLoopState evs).recording = false →
      (∀ j ∈ (run scr initLoopState evs).jobs, j.recFlag = false) →
      ∀ smp, Act.appended smp ∉ (step scr (run scr initLoopState evs) e).2) ∧
    ((run scr initLoopState evs).intervalActive = false →
      ∀ (t : ℤ) (c : Option CleanupResponse),
        step scr (run scr initLoopState evs) (.tick t c)
          = (run scr initLoopState evs, [])) := by
  constructor
  · intro _ hjobs smp hmem
    obtain ⟨i, r, cresp, j, _, hj, _, hrec⟩ :=
      append_act_shape scr (run scr initLoopState evs) e smp hmem
    have hfalse := hjobs j (List.getElem?_mem hj)
    rw [hfalse] at hrec
    cases hrec
  · intro hIA t c
    simp only [step, hIA, if_pos]

/-- C8 witness: in the freshly mounted state (not recording, nothing in
flight) a detection completion appends nothing, and after the unmount event a
tick is a no-op. -/
theorem c8_no_append_after_stop_amended_witness :
    (∀ smp, Act.appended smp ∉ (step screenOne
      (run screenOne initLoopState [])
      (.detectOk 0 (nativeDetectResult 1 1 []) none)).2) ∧
    step screenOne (run screenOne initLoopState [.unmount (some cleanupOk)])
        (.tick 900 none)
      = (run screenOne initLoopState [.unmount (some cleanupOk)], []) :=
  ⟨(c8_no_append_after_stop_amended screenOne []
        (.detectOk 0 (nativeDetectResult 1 1 []) none)).1
      (by decide) (by decide),
   (c8_no_append_after_stop_amended screenOne [.unmount (some cleanupOk)]
        (.tick 900 none)).2 (by decide) 900 none⟩

/-- C10: the native detector's success result always contains a `landmarks`
map (even for an empty pose, when `poseDetected` is false), and because a
present landmarks object is truthy in JavaScript even when empty, the
completion of any detection by a recording-closure execution appends exactly
one sample — with no condition on `poseDetected` or on any visibility. -/
theorem c10_append_on_landmarks_field (scr : Dims) (s : LoopState) (i : ℕ)
    (j : Job) (w h : ℤ) (pose : List RawLandmark)
    (cresp : Option CleanupResponse) (hj : s.jobs[i]? = some j)
    (hph : j.phase = JobPhase.detecting) (hrec : j.recFlag = true) :
    ((nativeDetectResult w h pose).landmarks).isSome = true ∧
    ((step scr s
        (.detectOk i (nativeDetectResult w h pose) cresp)).1.recorded).length
      = s.recorded.length + 1 := by
  constructor
  · rfl
  · simp only [step, hj, if_pos hph, nativeDetectResult, hrec, if_true,
      Option.getD_none, Bool.false_eq_true, if_false, List.length_append,
      List.length_cons, List.length_nil]

/-- C10 witness: in a reachable recording state with a detection in flight,
the completion of a detection of an EMPTY pose (zero MLKit landmarks, so
`poseDetected` is false and the landmarks map is empty) still appends one
sample. -/
theorem c10_append_on_landmarks_field_witness :
    ((nativeDetectResult 720 1280 []).landmarks).isSome = true ∧
    ((step screenOne
        (run screenOne initLoopState
          [.startRec 100 (some cleanupOk), .tick 300 none, .photoOk 0])
        (.detectOk 0 (nativeDetectResult 720 1280 []) none)).1.recorded).length
      = (run screenOne initLoopState
          [.startRec 100 (some cleanupOk), .tick 300 none, .photoOk 0]).recorded.length
        + 1 :=
  c10_append_on_landmarks_field screenOne
    (run screenOne initLoopState
      [.startRec 100 (some cleanupOk), .tick 300 none, .photoOk 0])
    0 { phase := JobPhase.detecting, now := 300, recFlag := true }
    720 1280 [] none (by decide) rfl rfl
